import Mathlib

/-! Verification of list_multicast_ids.c: generic-netlink family and multicast-group discovery.

A shallow embedding of `src/list_multicast_ids.c`.

* A linked list (`head` pointer plus `next` links) is the Lean list of its
  nodes, the node at `head` first; a null `head` is `[]`.
* A C string is the Lean `String` of its characters before the terminator,
  one `Char` per byte.
* A pointer that may be null is an `Option`.
* The netlink library and the kernel are not part of the program: what their
  calls return is read from a `nl_kernel` record of functions, and the calls
  the program makes on sockets are logged in `nl_state.trace`.
* A write past the end of a `char name[MAX_NAME_LEN]` field, and the use of a
  cache pointer that was never set, have no defined behaviour in C: the
  functions return `none` there.
* `EXIT_ON_ALLOCATION_FAILURE` ends the process; the embedding describes the
  runs in which every allocation succeeds.
-/

namespace ListMulticastIds

/-! ## Constants of the netlink headers -/

/-- Size of a generic-netlink name field, `GENL_NAMSIZ` of `linux/genetlink.h`. -/
def GENL_NAMSIZ : Nat := 16

/-- Source: `#define MAX_NAME_LEN GENL_NAMSIZ`. -/
def MAX_NAME_LEN : Nat := GENL_NAMSIZ

/-- Command number `CTRL_CMD_GETFAMILY` of `linux/genetlink.h`. -/
def CTRL_CMD_GETFAMILY : Nat := 3

/-- Attribute number `CTRL_ATTR_FAMILY_NAME` of `linux/genetlink.h`. -/
def CTRL_ATTR_FAMILY_NAME : Nat := 2

/-- Callback action `NL_OK` of `netlink/handlers.h`: proceed with the next message. -/
def NL_OK : Int := 0

/-- Callback action `NL_SKIP` of `netlink/handlers.h`: skip this message, go on with the next. -/
def NL_SKIP : Int := 1

/-- Callback action `NL_STOP` of `netlink/handlers.h`: stop parsing. -/
def NL_STOP : Int := 2

/-! ## Data model -/

/-- Source: `struct multicast_group`, without the `next` link. -/
structure multicast_group where
  id : Nat
  name : String
deriving DecidableEq, Repr

/-- Source: `struct multicast_group_list`: the nodes reached from `head`. -/
abbrev multicast_group_list := List multicast_group

/-- Source: `struct nlctrl_family`, without the `next` link; `mc_groups` is a
pointer, `none` when null. -/
structure nlctrl_family where
  id : Int
  name : String
  version : Int
  mc_groups : Option multicast_group_list
deriving DecidableEq, Repr

/-- Source: `struct nlctrl_family_list`: the nodes reached from `head`. -/
abbrev nlctrl_family_list := List nlctrl_family

/-- The table `nla_parse` fills for one nested group entry, as far as
`multicast_groups_cb` reads it: `grp_name` is `tb_mcgrp[CTRL_ATTR_MCAST_GRP_NAME]`
(`none` when null, else the string at `nla_data`), `grp_id` is
`tb_mcgrp[CTRL_ATTR_MCAST_GRP_ID]` (`none` when null, else its `nla_get_u32`). -/
structure mcgrp_entry where
  grp_name : Option String
  grp_id : Option Nat
deriving DecidableEq, Repr

/-- A received message as `multicast_groups_cb` reads it:
`attributes[CTRL_ATTR_MCAST_GROUPS]` after `nla_parse`, `none` when null, else
the nested entries in the order `nla_for_each_nested` visits them. -/
structure nl_msg where
  mcast_groups : Option (List mcgrp_entry)
deriving DecidableEq, Repr

/-- The request `list_all_multicast_groups` builds: the family id given to
`genlmsg_put`, the command, and the string put as `CTRL_ATTR_FAMILY_NAME`. -/
structure nl_request where
  family : Int
  cmd : Nat
  family_name : String
deriving DecidableEq, Repr

/-- One call of the dump callback: the line handed over as `buff`, and the
contents the block returned by `malloc` happens to hold (`malloc` does not
initialise it). -/
structure dump_call where
  buff : String
  mem : nlctrl_family
deriving DecidableEq, Repr

/-- A cache object, seen through `nl_object_dump` with `NL_DUMP_LINE`: the
calls of `dp_cb` it makes, in order. -/
abbrev nl_object := List dump_call

/-- A call the program makes on a socket; sockets are numbered in the order
`nl_socket_alloc` returns them. -/
inductive nl_event where
  | socket_alloc (s : Nat)
  | genl_connect (s : Nat)
  | ctrl_alloc_cache (s : Nat)
  | ctrl_resolve (s : Nat) (name : String)
  | send_auto (s : Nat) (msg : nl_request)
  | recvmsgs (s : Nat)
  | socket_free (s : Nat)
deriving DecidableEq, Repr

/-- What the netlink library and the kernel answer.
* `genl_ctrl_alloc_cache s`: `none` when the call fails and leaves the cache
  pointer unset, else the objects of the cache in iteration order;
* `genl_ctrl_resolve s name`: the return value;
* `nla_put_string name`: the return value of the call inside `NLA_PUT_STRING`;
* `nl_send_auto s msg`: the return value;
* `nl_recvmsgs s msg`: the valid messages handed to the `NL_CB_VALID` callback,
  in order, when `msg` was sent on socket `s`. -/
structure nl_kernel where
  genl_ctrl_alloc_cache : Nat → Option (List nl_object)
  genl_ctrl_resolve : Nat → String → Int
  nla_put_string : String → Int
  nl_send_auto : Nat → nl_request → Int
  nl_recvmsgs : Nat → nl_request → List nl_msg

/-- The part of the process state the embedding tracks: the number of the
next socket `nl_socket_alloc` returns and the socket calls made so far. -/
structure nl_state where
  next_sock : Nat
  trace : List nl_event
deriving DecidableEq, Repr

/-! ## multicast_groups_cb -/

/-- Body of the `nla_for_each_nested` loop of `multicast_groups_cb`, run over
the remaining entries; `groups` is the list at `groups->head`. -/
def mcast_loop : List mcgrp_entry → multicast_group_list → Option multicast_group_list
  | [], groups => some groups
  | curr :: rest, groups =>
    match curr.grp_name, curr.grp_id with
    | some nm, some gid =>
      -- strcpy(new_node->name, ...) writes nm.length + 1 bytes into name[MAX_NAME_LEN]
      if MAX_NAME_LEN ≤ nm.length then none
      else
        -- new_node->next = groups->head; groups->head = new_node
        mcast_loop rest ({ id := gid % 2 ^ 32, name := nm } :: groups)
    | _, _ => mcast_loop rest groups   -- continue

/-- Source: `multicast_groups_cb`. Returns the callback action and the list
in `context` after the call. -/
def multicast_groups_cb (msg : nl_msg) (groups : multicast_group_list) :
    Option (Int × multicast_group_list) :=
  match msg.mcast_groups with
  | none => some (NL_SKIP, groups)
  | some entries =>
    match mcast_loop entries groups with
    | none => none
    | some groups => some (NL_OK, groups)

/-- The message loop of `nl_recvmsgs(socket, cb)` with `multicast_groups_cb`
set for `NL_CB_VALID` and `list` as its context: the callback is called on
each valid message until one returns `NL_STOP`. -/
def recvmsgs_dispatch : List nl_msg → multicast_group_list → Option multicast_group_list
  | [], list => some list
  | m :: ms, list =>
    match multicast_groups_cb m list with
    | none => none
    | some (act, list) => if act = NL_STOP then some list else recvmsgs_dispatch ms list

/-! ## list_all_multicast_groups -/

/-- Appends an event to the trace. -/
def nl_state.log (st : nl_state) (e : nl_event) : nl_state :=
  { st with trace := st.trace ++ [e] }

/-- The call `nl_socket_alloc()`: the new socket and the state after. -/
def nl_socket_alloc (st : nl_state) : Nat × nl_state :=
  (st.next_sock,
    { next_sock := st.next_sock + 1, trace := st.trace ++ [nl_event.socket_alloc st.next_sock] })

/-- Source: `list_all_multicast_groups`. Returns the state after the call and
the returned pointer (`none` when null). -/
def list_all_multicast_groups (k : nl_kernel) (st : nl_state) (socket : Nat)
    (family_name : String) : Option (nl_state × Option multicast_group_list) :=
  -- socket = nl_socket_alloc(): the parameter is assigned before it is read
  let (socket, st) := nl_socket_alloc st
  let st := st.log (nl_event.genl_connect socket)
  let nlctrl_id := k.genl_ctrl_resolve socket "nlctrl"
  let st := st.log (nl_event.ctrl_resolve socket "nlctrl")
  let msg : nl_request :=
    { family := nlctrl_id, cmd := CTRL_CMD_GETFAMILY, family_name := family_name }
  if k.nla_put_string family_name < 0 then
    -- goto nla_put_failure: list is still 0
    some (st.log (nl_event.socket_free socket), none)
  else
    let list : multicast_group_list := []
    let ret := k.nl_send_auto socket msg
    let st := st.log (nl_event.send_auto socket msg)
    if ret < 0 then
      -- goto finish
      some (st.log (nl_event.socket_free socket), some list)
    else
      let st := st.log (nl_event.recvmsgs socket)
      match recvmsgs_dispatch (k.nl_recvmsgs socket msg) list with
      | none => none
      | some list => some (st.log (nl_event.socket_free socket), some list)

/-! ## sscanf(buff, "%x %s version %d", ...) -/

/-- The white-space characters of `isspace` in the C locale. -/
def isspace (c : Char) : Bool :=
  c == ' ' || c == '\t' || c == '\n' || c == '\x0b' || c == '\x0c' || c == '\r'

/-- Skips leading white space. -/
def skip_space : List Char → List Char
  | [] => []
  | c :: cs => if isspace c then skip_space cs else c :: cs

/-- Value of `c` as a digit of the given base, if it is one. -/
def digit_value (base : Nat) (c : Char) : Option Nat :=
  let n := c.toNat
  let v : Option Nat :=
    if 48 ≤ n ∧ n ≤ 57 then some (n - 48)
    else if 97 ≤ n ∧ n ≤ 102 then some (n - 87)
    else if 65 ≤ n ∧ n ≤ 70 then some (n - 55)
    else none
  match v with
  | some d => if d < base then some d else none
  | none => none

/-- Reads digits while there are some: the number of digits read, the value
accumulated on `acc`, and the rest of the input. -/
def scan_digits (base : Nat) : List Char → Nat → Nat × Nat × List Char
  | [], acc => (0, acc, [])
  | c :: cs, acc =>
    match digit_value base c with
    | some d =>
      let r := scan_digits base cs (acc * base + d)
      (r.1 + 1, r.2.1, r.2.2)
    | none => (0, acc, c :: cs)

/-- An optional sign: whether it is a minus, and the rest. -/
def scan_sign : List Char → Bool × List Char
  | '-' :: cs => (true, cs)
  | '+' :: cs => (false, cs)
  | cs => (false, cs)

/-- An optional `0x` or `0X`. -/
def scan_hex_lead : List Char → List Char
  | '0' :: 'x' :: cs => cs
  | '0' :: 'X' :: cs => cs
  | cs => cs

/-- The 32-bit pattern `u` read as an `int`. -/
def to_int32 (u : Nat) : Int :=
  if u % 2 ^ 32 < 2 ^ 31 then (u % 2 ^ 32 : Nat) else ((u % 2 ^ 32 : Nat) : Int) - 2 ^ 32

/-- The conversion `%x` or `%d`: white space is skipped, then an optionally
signed number is read (for base 16 with an optional `0x`); at least one digit
is required. The value is kept in 32 bits (the C standard leaves a value that
does not fit undefined). Gives the `int` stored and the rest of the input. -/
def scan_int (base : Nat) (s : List Char) : Option (Int × List Char) :=
  let s := skip_space s
  let (neg, s) := scan_sign s
  let s := if base = 16 then scan_hex_lead s else s
  let r := scan_digits base s 0
  if r.1 = 0 then none
  else
    let u := r.2.1 % 2 ^ 32
    some (to_int32 (if neg then 2 ^ 32 - u else u), r.2.2)

/-- The conversion `%s`: white space is skipped, then the characters up to
the next white space are read; at least one is required. -/
def scan_word (s : List Char) : Option (List Char × List Char) :=
  let s := skip_space s
  let w := s.takeWhile (fun c => !isspace c)
  if w = [] then none else some (w, s.dropWhile (fun c => !isspace c))

/-- Matches the ordinary characters `lit` of the format against the input. -/
def scan_literal : List Char → List Char → Option (List Char)
  | [], s => some s
  | _ :: _, [] => none
  | l :: ls, c :: cs => if l = c then scan_literal ls cs else none

/-- What `sscanf` stored through its three pointer arguments: `none` for an
object it did not write. -/
structure scanned where
  id : Option Int
  name : Option String
  version : Option Int
deriving DecidableEq, Repr

/-- The call `sscanf(buff, "%x %s version %d", &id, name, &version)`: the
directives run in order and the call stops at the first one that fails. -/
def sscanf_family (buff : List Char) : scanned :=
  match scan_int 16 buff with
  | none => { id := none, name := none, version := none }
  | some (id, s) =>
    match scan_word (skip_space s) with
    | none => { id := some id, name := none, version := none }
    | some (w, s) =>
      let nm := String.mk w
      match scan_literal "version".toList (skip_space s) with
      | none => { id := some id, name := some nm, version := none }
      | some s =>
        match scan_int 10 (skip_space s) with
        | none => { id := some id, name := some nm, version := none }
        | some (v, _) => { id := some id, name := some nm, version := some v }

/-! ## nl_object_dump_cb, list_families_cb, list_families -/

/-- The node `nl_object_dump_cb` fills before it links it: the block from
`malloc`, `mc_groups` set to null, and the objects `sscanf` writes. -/
def new_node (c : dump_call) : Option nlctrl_family :=
  -- new_node = malloc(...); new_node->mc_groups = 0
  let node : nlctrl_family := { c.mem with mc_groups := none }
  let r := sscanf_family c.buff.data
  match r.name with
  | some nm =>
    -- %s writes nm.length + 1 bytes into name[MAX_NAME_LEN]
    if MAX_NAME_LEN ≤ nm.length then none
    else some { node with id := r.id.getD node.id, name := nm,
                          version := r.version.getD node.version }
  | none => some { node with id := r.id.getD node.id }

/-- Source: `nl_object_dump_cb`; `lst` is the list at `lst->head`. -/
def nl_object_dump_cb (lst : nlctrl_family_list) (c : dump_call) : Option nlctrl_family_list :=
  match new_node c with
  | none => none
  | some node =>
    -- new_node->next = lst->head; lst->head = new_node
    some (node :: lst)

/-- Runs the dump callback over the calls one object makes. -/
def dump_calls : List dump_call → nlctrl_family_list → Option nlctrl_family_list
  | [], lst => some lst
  | c :: cs, lst =>
    match nl_object_dump_cb lst c with
    | none => none
    | some lst => dump_calls cs lst

/-- Source: `list_families_cb`: `nl_object_dump(obj, &params)` with
`nl_object_dump_cb` as `dp_cb` and the family list as `dp_data`. -/
def list_families_cb (obj : nl_object) (family_list : nlctrl_family_list) :
    Option nlctrl_family_list :=
  dump_calls obj family_list

/-- The iteration `nl_cache_foreach(cache, list_families_cb, family_list)`. -/
def nl_cache_foreach : List nl_object → nlctrl_family_list → Option nlctrl_family_list
  | [], lst => some lst
  | obj :: objs, lst =>
    match list_families_cb obj lst with
    | none => none
    | some lst => nl_cache_foreach objs lst

/-- Source: `list_families`. -/
def list_families (k : nl_kernel) (st : nl_state) (sock : Nat) :
    Option (nl_state × nlctrl_family_list) :=
  let family_list : nlctrl_family_list := []
  let st := st.log (nl_event.ctrl_alloc_cache sock)
  match k.genl_ctrl_alloc_cache sock with
  | none => none   -- cache was never set and is iterated all the same
  | some cache =>
    match nl_cache_foreach cache family_list with
    | none => none
    | some family_list => some (st, family_list)

/-! ## get_nlctrl_families -/

/-- The `while(curr)` loop of `get_nlctrl_families`, from node `curr` on:
the state after, and the nodes as the loop leaves them. -/
def resolve_loop (k : nl_kernel) (socket : Nat) :
    nl_state → List nlctrl_family → Option (nl_state × List nlctrl_family)
  | st, [] => some (st, [])
  | st, curr :: rest =>
    match list_all_multicast_groups k st socket curr.name with
    | none => none
    | some (st, groups) =>
      match resolve_loop k socket st rest with
      | none => none
      | some (st, rest) => some (st, { curr with mc_groups := groups } :: rest)

/-- Source: `get_nlctrl_families`. -/
def get_nlctrl_families (k : nl_kernel) (st : nl_state) :
    Option (nl_state × nlctrl_family_list) :=
  let (socket, st) := nl_socket_alloc st
  let st := st.log (nl_event.genl_connect socket)
  match list_families k st socket with
  | none => none
  | some (st, lst) =>
    match resolve_loop k socket st lst with
    | none => none
    | some (st, lst) => some (st.log (nl_event.socket_free socket), lst)

/-- The state of a process that has made no socket call yet. -/
def nl_state.init : nl_state := { next_sock := 0, trace := [] }

/-! ## Vocabulary of the statements -/

/-- The record a nested entry stands for: one with both attributes gives the
record of that id and name, one that misses either gives none. -/
def entry_group (e : mcgrp_entry) : Option multicast_group :=
  match e.grp_name, e.grp_id with
  | some nm, some gid => some { id := gid, name := nm }
  | _, _ => none

/-- An entry the wire format allows: a name fits `GENL_NAMSIZ` bytes with its
terminator and an id is a 32-bit value. -/
def entry_wf (e : mcgrp_entry) : Bool :=
  (match e.grp_name with
   | some nm => decide (nm.length < MAX_NAME_LEN)
   | none => true) &&
  (match e.grp_id with
   | some gid => decide (gid < 2 ^ 32)
   | none => true)

/-- The nested entries of a message, none when the attribute is absent. -/
def msg_entries (m : nl_msg) : List mcgrp_entry :=
  match m.mcast_groups with
  | none => []
  | some entries => entries

/-- A message all of whose entries the wire format allows. -/
def msg_wf (m : nl_msg) : Bool := (msg_entries m).all entry_wf

/-- Every message the kernel delivers is one the wire format allows. -/
def kernel_wf (k : nl_kernel) : Prop :=
  ∀ s req, ∀ m ∈ k.nl_recvmsgs s req, msg_wf m = true

/-- A dump call whose `%s` word, if there is one, fits the name field with its
terminator. -/
def dump_call_fits (c : dump_call) : Bool :=
  match (sscanf_family c.buff.data).name with
  | some nm => decide (nm.length < MAX_NAME_LEN)
  | none => true

/-- Number of `genl_ctrl_resolve` calls in a trace; `list_all_multicast_groups`
makes one per call and nothing else makes any. -/
def resolver_calls : List nl_event → Nat
  | [] => 0
  | nl_event.ctrl_resolve _ _ :: es => resolver_calls es + 1
  | _ :: es => resolver_calls es

/-- The request `list_all_multicast_groups` sends for `family_name` on socket `s`. -/
def getfamily_request (k : nl_kernel) (s : Nat) (family_name : String) : nl_request :=
  { family := k.genl_ctrl_resolve s "nlctrl", cmd := CTRL_CMD_GETFAMILY,
    family_name := family_name }

/-! ## Sample inputs -/

/-- A block of zero bytes, as `malloc` returns it from fresh pages. -/
def zero_mem : nlctrl_family := { id := 0, name := "", version := 0, mc_groups := none }

/-- The response for a family with the groups `mlme` (3) and `scan` (5). -/
def nl80211_msg : nl_msg :=
  { mcast_groups := some [{ grp_name := some "mlme", grp_id := some 3 },
                          { grp_name := some "scan", grp_id := some 5 }] }

/-- A kernel with the families `nlctrl` (no groups) and `nl80211` (two groups),
on which every call succeeds. -/
def demo_kernel : nl_kernel where
  genl_ctrl_alloc_cache := fun _ =>
    some [[{ buff := "0x0010 nlctrl version 2\n", mem := zero_mem }],
          [{ buff := "0x001c nl80211 version 1\n", mem := zero_mem }]]
  genl_ctrl_resolve := fun _ _ => 16
  nla_put_string := fun _ => 0
  nl_send_auto := fun _ _ => 36
  nl_recvmsgs := fun _ req => if req.family_name = "nl80211" then [nl80211_msg] else [{ mcast_groups := none }]

/-- The sample kernel, with `nl_send_auto` failing on the request for `nl80211`. -/
def send_fail_kernel : nl_kernel :=
  { demo_kernel with
    nl_send_auto := fun _ req => if req.family_name = "nl80211" then -1 else 36 }

/-- The sample kernel, with `genl_ctrl_resolve` failing (`-NLE_OBJ_NOTFOUND`). -/
def resolve_fail_kernel : nl_kernel := { demo_kernel with genl_ctrl_resolve := fun _ _ => -12 }

/-! ## Lemmas on the group callback -/

theorem entry_wf_name {e : mcgrp_entry} (h : entry_wf e = true) {nm : String}
    (hn : e.grp_name = some nm) : nm.length < MAX_NAME_LEN := by
  unfold entry_wf at h
  rw [hn] at h
  simp at h
  exact h.1

theorem entry_wf_id {e : mcgrp_entry} (h : entry_wf e = true) {gid : Nat}
    (hg : e.grp_id = some gid) : gid < 2 ^ 32 := by
  unfold entry_wf at h
  rw [hg] at h
  simp at h
  exact h.2

theorem mcast_loop_wf (entries : List mcgrp_entry) :
    ∀ groups : multicast_group_list, (∀ e ∈ entries, entry_wf e = true) →
      mcast_loop entries groups = some ((entries.filterMap entry_group).reverse ++ groups) := by
  induction entries with
  | nil => intro groups _; simp [mcast_loop]
  | cons e rest ih =>
    intro groups h
    have he : entry_wf e = true := h e (List.mem_cons_self _ _)
    have hrest : ∀ x ∈ rest, entry_wf x = true := fun x hx => h x (List.mem_cons_of_mem _ hx)
    cases hn : e.grp_name with
    | none => simp [mcast_loop, entry_group, hn, ih groups hrest]
    | some nm =>
      cases hg : e.grp_id with
      | none => simp [mcast_loop, entry_group, hn, hg, ih groups hrest]
      | some gid =>
        have h1 : ¬ MAX_NAME_LEN ≤ nm.length := Nat.not_le.mpr (entry_wf_name he hn)
        have h2 : gid % 2 ^ 32 = gid := Nat.mod_eq_of_lt (entry_wf_id he hg)
        simp only [mcast_loop, hn, hg, h1, if_false, h2, entry_group, List.filterMap_cons,
          List.reverse_cons, List.append_assoc, List.singleton_append]
        rw [ih _ hrest]

theorem multicast_groups_cb_wf (m : nl_msg) (groups : multicast_group_list)
    (h : msg_wf m = true) :
    multicast_groups_cb m groups =
      some (if m.mcast_groups = none then NL_SKIP else NL_OK,
            ((msg_entries m).filterMap entry_group).reverse ++ groups) := by
  unfold msg_wf at h
  cases hm : m.mcast_groups with
  | none => simp [multicast_groups_cb, msg_entries, hm]
  | some entries =>
    have hall : ∀ e ∈ entries, entry_wf e = true := by
      simpa [msg_entries, hm, List.all_eq_true] using h
    simp [multicast_groups_cb, msg_entries, hm, mcast_loop_wf entries groups hall]

theorem recvmsgs_dispatch_wf (msgs : List nl_msg) :
    ∀ list : multicast_group_list, (∀ m ∈ msgs, msg_wf m = true) →
      recvmsgs_dispatch msgs list =
        some (((msgs.flatMap msg_entries).filterMap entry_group).reverse ++ list) := by
  induction msgs with
  | nil => intro list _; simp [recvmsgs_dispatch]
  | cons m ms ih =>
    intro list h
    have hm : msg_wf m = true := h m (List.mem_cons_self _ _)
    have hms : ∀ x ∈ ms, msg_wf x = true := fun x hx => h x (List.mem_cons_of_mem _ hx)
    have hstop : ¬ ((if m.mcast_groups = none then NL_SKIP else NL_OK) = NL_STOP) := by
      split <;> decide
    simp only [recvmsgs_dispatch, multicast_groups_cb_wf m list hm, hstop, if_false]
    rw [ih _ hms]
    simp [List.flatMap_cons, List.filterMap_append, List.reverse_append]

/-! ## Lemmas on the resolver and the builder loop -/

theorem resolver_calls_append (a b : List nl_event) :
    resolver_calls (a ++ b) = resolver_calls a + resolver_calls b := by
  induction a with
  | nil => simp [resolver_calls]
  | cons e es ih =>
    cases e <;> simp [resolver_calls, ih]
    omega

/-- What one call of `list_all_multicast_groups` does when the kernel's
messages are well formed: it returns, on a socket of its own. -/
theorem list_all_multicast_groups_spec (k : nl_kernel) (hk : kernel_wf k) (st : nl_state)
    (socket : Nat) (family_name : String) :
    ∃ st' g, list_all_multicast_groups k st socket family_name = some (st', g) ∧
      st'.next_sock = st.next_sock + 1 ∧
      resolver_calls st'.trace = resolver_calls st.trace + 1 ∧
      (∃ evs, st'.trace = st.trace ++ evs) ∧
      (k.nla_put_string family_name < 0 → g = none) ∧
      (0 ≤ k.nla_put_string family_name →
        nl_event.send_auto st.next_sock (getfamily_request k st.next_sock family_name)
          ∈ st'.trace) ∧
      (0 ≤ k.nla_put_string family_name →
        k.nl_send_auto st.next_sock (getfamily_request k st.next_sock family_name) < 0 →
        g = some []) ∧
      (0 ≤ k.nla_put_string family_name →
        0 ≤ k.nl_send_auto st.next_sock (getfamily_request k st.next_sock family_name) →
        g = some ((((k.nl_recvmsgs st.next_sock
              (getfamily_request k st.next_sock family_name)).flatMap
                msg_entries).filterMap entry_group).reverse)) := by
  have hd := recvmsgs_dispatch_wf
    (k.nl_recvmsgs st.next_sock (getfamily_request k st.next_sock family_name)) []
    (hk _ _)
  unfold getfamily_request at hd ⊢
  by_cases hput : k.nla_put_string family_name < 0
  · simp only [list_all_multicast_groups, nl_socket_alloc, hput, if_true]
    refine ⟨_, _, rfl, ?_⟩
    simp [nl_state.log, resolver_calls_append, resolver_calls, hput]
  · by_cases hsend : k.nl_send_auto st.next_sock
        { family := k.genl_ctrl_resolve st.next_sock "nlctrl", cmd := CTRL_CMD_GETFAMILY,
          family_name := family_name } < 0
    · simp only [list_all_multicast_groups, nl_socket_alloc, hput, hsend, if_true, if_false]
      refine ⟨_, _, rfl, ?_⟩
      simp [nl_state.log, resolver_calls_append, resolver_calls, hput, hsend]
    · simp only [list_all_multicast_groups, nl_socket_alloc, hput, hsend, if_false, hd]
      refine ⟨_, _, rfl, ?_⟩
      simp [nl_state.log, resolver_calls_append, resolver_calls, hput, hsend]

/-- The `while(curr)` loop returns when the kernel's messages are well formed:
it keeps the nodes in place and gives the node at position `i` the list one
resolver call, made for that node's name, returned. -/
theorem resolve_loop_spec (k : nl_kernel) (hk : kernel_wf k) (socket : Nat)
    (lst : List nlctrl_family) :
    ∀ st : nl_state, ∃ st' out, resolve_loop k socket st lst = some (st', out) ∧
      st'.next_sock = st.next_sock + lst.length ∧
      resolver_calls st'.trace = resolver_calls st.trace + lst.length ∧
      (∃ evs, st'.trace = st.trace ++ evs) ∧
      out.length = lst.length ∧
      ∀ i f, lst[i]? = some f →
        ∃ sa sb g, sa.next_sock = st.next_sock + i ∧
          (∃ evs, sa.trace = st.trace ++ evs) ∧ (∃ evs, st'.trace = sb.trace ++ evs) ∧
          list_all_multicast_groups k sa socket f.name = some (sb, g) ∧
          out[i]? = some { f with mc_groups := g } := by
  induction lst with
  | nil =>
    intro st
    exact ⟨st, [], by simp [resolve_loop], by simp, by simp, ⟨[], by simp⟩, rfl,
      by intro i f h; simp at h⟩
  | cons curr rest ih =>
    intro st
    obtain ⟨st1, g, h1, hs1, hr1, ⟨ev1, ht1⟩, _⟩ :=
      list_all_multicast_groups_spec k hk st socket curr.name
    obtain ⟨st2, out, h2, hs2, hr2, ⟨ev2, ht2⟩, hl2, hi2⟩ := ih st1
    refine ⟨st2, { curr with mc_groups := g } :: out, ?_, ?_, ?_, ?_, ?_, ?_⟩
    · simp [resolve_loop, h1, h2]
    · simp [hs2, hs1]; omega
    · simp [hr2, hr1]; omega
    · exact ⟨ev1 ++ ev2, by rw [ht2, ht1, List.append_assoc]⟩
    · simp [hl2]
    · intro i f hf
      cases i with
      | zero =>
        simp at hf
        subst hf
        exact ⟨st, st1, g, by simp, ⟨[], by simp⟩, ⟨ev2, ht2⟩, h1, by simp⟩
      | succ j =>
        simp at hf
        obtain ⟨sa, sb, g', ha, ⟨eva, hta⟩, hb, hc, hd⟩ := hi2 j f hf
        refine ⟨sa, sb, g', by rw [ha, hs1]; omega, ⟨ev1 ++ eva, ?_⟩, hb, hc, by simpa using hd⟩
        rw [hta, ht1, List.append_assoc]

/-! ## Lemmas on the family lister and the builder -/

theorem new_node_fits (c : dump_call) (h : dump_call_fits c = true) :
    ∃ f, new_node c = some f := by
  unfold dump_call_fits at h
  simp only [new_node]
  cases hn : (sscanf_family c.buff.data).name with
  | none => exact ⟨_, rfl⟩
  | some nm =>
    rw [hn] at h
    have h1 : ¬ MAX_NAME_LEN ≤ nm.length := by simpa using h
    simp only [h1, if_false]
    exact ⟨_, rfl⟩

theorem filterMap_getElem_of_forall_some {α β : Type} (g : α → Option β) (l : List α)
    (h : ∀ c ∈ l, ∃ f, g c = some f) :
    (l.filterMap g).length = l.length ∧
      ∀ (i : Nat) (c : α), l[i]? = some c → (l.filterMap g)[i]? = g c := by
  induction l with
  | nil => simp
  | cons a t ih =>
    obtain ⟨fa, hfa⟩ := h a (List.mem_cons_self _ _)
    have ht := ih (fun c hc => h c (List.mem_cons_of_mem _ hc))
    refine ⟨by simp [List.filterMap_cons, hfa, ht.1], ?_⟩
    intro i c hi
    cases i with
    | zero =>
      simp at hi
      subst hi
      simp [List.filterMap_cons, hfa]
    | succ j =>
      simp at hi
      simpa [List.filterMap_cons, hfa] using ht.2 j c hi

theorem dump_calls_fits (cs : List dump_call) :
    ∀ lst : nlctrl_family_list, (∀ c ∈ cs, dump_call_fits c = true) →
      dump_calls cs lst = some ((cs.filterMap new_node).reverse ++ lst) := by
  induction cs with
  | nil => intro lst _; simp [dump_calls]
  | cons c t ih =>
    intro lst h
    obtain ⟨f, hf⟩ := new_node_fits c (h c (List.mem_cons_self _ _))
    have ht : ∀ x ∈ t, dump_call_fits x = true := fun x hx => h x (List.mem_cons_of_mem _ hx)
    simp [dump_calls, nl_object_dump_cb, hf, ih _ ht, List.filterMap_cons]

theorem nl_cache_foreach_fits (cache : List nl_object) :
    ∀ lst : nlctrl_family_list, (∀ c ∈ cache.flatten, dump_call_fits c = true) →
      nl_cache_foreach cache lst = some ((cache.flatten.filterMap new_node).reverse ++ lst) := by
  induction cache with
  | nil => intro lst _; simp [nl_cache_foreach]
  | cons obj objs ih =>
    intro lst h
    have h1 : ∀ c ∈ obj, dump_call_fits c = true := fun c hc =>
      h c (by simp [List.flatten_cons, hc])
    have h2 : ∀ c ∈ objs.flatten, dump_call_fits c = true := fun c hc =>
      h c (by simp only [List.flatten_cons, List.mem_append]; exact Or.inr hc)
    simp [nl_cache_foreach, list_families_cb, dump_calls_fits obj lst h1, ih _ h2,
      List.flatten_cons, List.filterMap_append, List.reverse_append]

/-- The list `list_families` returns does not depend on the state it starts in. -/
theorem list_families_state (k : nl_kernel) (sa sb : nl_state) (sock : Nat)
    (lst : nlctrl_family_list) (h : list_families k sa sock = some (sb, lst)) (st : nl_state) :
    list_families k st sock = some (st.log (nl_event.ctrl_alloc_cache sock), lst) := by
  unfold list_families at h ⊢
  cases hc : k.genl_ctrl_alloc_cache sock with
  | none => simp [hc] at h
  | some cache =>
    cases hf : nl_cache_foreach cache [] with
    | none => simp [hc, hf] at h
    | some l =>
      simp [hc, hf] at h
      simp [hf, h.2]

/-- The builder returns whenever the lister does and the kernel's messages
are well formed; the node at position `i` gets the list of the resolver call
made for its name on socket `st.next_sock + 1 + i`. -/
theorem get_nlctrl_families_spec (k : nl_kernel) (hk : kernel_wf k) (st sa sb : nl_state)
    (lst : nlctrl_family_list) (hl : list_families k sa st.next_sock = some (sb, lst)) :
    ∃ st' out, get_nlctrl_families k st = some (st', out) ∧
      st'.next_sock = st.next_sock + 1 + lst.length ∧
      resolver_calls st'.trace = resolver_calls st.trace + lst.length ∧
      out.length = lst.length ∧
      ∀ i f, lst[i]? = some f →
        ∃ s1 s2 g, s1.next_sock = st.next_sock + 1 + i ∧
          (∃ evs, st'.trace = s2.trace ++ evs) ∧
          list_all_multicast_groups k s1 st.next_sock f.name = some (s2, g) ∧
          out[i]? = some { f with mc_groups := g } := by
  have hl2 := list_families_state k sa sb st.next_sock lst hl
    ((nl_socket_alloc st).2.log (nl_event.genl_connect st.next_sock))
  obtain ⟨st2, out, h2, hs2, hr2, _, hlen, hi⟩ := resolve_loop_spec k hk st.next_sock lst
    (((nl_socket_alloc st).2.log (nl_event.genl_connect st.next_sock)).log
      (nl_event.ctrl_alloc_cache st.next_sock))
  refine ⟨st2.log (nl_event.socket_free st.next_sock), out, ?_, ?_, ?_, hlen, ?_⟩
  · simp only [get_nlctrl_families]
    simp only [nl_socket_alloc] at hl2 h2 ⊢
    simp only [hl2, h2]
  · simp [nl_state.log, nl_socket_alloc] at hs2 ⊢
    omega
  · simp [nl_state.log, nl_socket_alloc, resolver_calls_append, resolver_calls] at hr2 ⊢
    omega
  · intro i f hf
    obtain ⟨s1, s2, g, ha, _, ⟨evs, hb⟩, hc, hd⟩ := hi i f hf
    refine ⟨s1, s2, g, ?_, ⟨evs ++ [nl_event.socket_free st.next_sock], ?_⟩, hc, hd⟩
    · simp [nl_state.log, nl_socket_alloc] at ha
      omega
    · simp [nl_state.log, hb]

/-- A catalog the builder returns comes from a list the lister returned. -/
theorem get_nlctrl_families_inv (k : nl_kernel) (st st' : nl_state) (out : nlctrl_family_list)
    (h : get_nlctrl_families k st = some (st', out)) :
    ∃ sa sb lst, list_families k sa st.next_sock = some (sb, lst) := by
  simp only [get_nlctrl_families, nl_socket_alloc] at h
  split at h
  · exact absurd h (by simp)
  · next s l heq => exact ⟨_, s, l, heq⟩

/-! ## The catalog builder -/

/-- C1: for every family list `lst` that `list_families` produces, and every
kernel whose messages are well formed, `get_nlctrl_families` returns a list of
the same length in which the node at each position keeps the id, name and
version of the node of `lst` at that position, and holds as `mc_groups` the
list that a call of `list_all_multicast_groups` for that node's own name
returned; the build makes one resolver call per listed family. -/
theorem get_nlctrl_families_attaches_groups (k : nl_kernel) (hk : kernel_wf k)
    (st sa sb : nl_state) (lst : nlctrl_family_list)
    (hl : list_families k sa st.next_sock = some (sb, lst)) :
    ∃ st' out, get_nlctrl_families k st = some (st', out) ∧
      out.length = lst.length ∧
      resolver_calls st'.trace = resolver_calls st.trace + lst.length ∧
      ∀ (i : Nat) (f : nlctrl_family), lst[i]? = some f →
        ∃ o, out[i]? = some o ∧ o.id = f.id ∧ o.name = f.name ∧ o.version = f.version ∧
          ∃ s1 s2, s1.next_sock = st.next_sock + 1 + i ∧
            list_all_multicast_groups k s1 st.next_sock f.name = some (s2, o.mc_groups) := by
  obtain ⟨st', out, h, _, hr, hlen, hi⟩ := get_nlctrl_families_spec k hk st sa sb lst hl
  refine ⟨st', out, h, hlen, hr, ?_⟩
  intro i f hf
  obtain ⟨s1, s2, g, h1, _, h3, h4⟩ := hi i f hf
  exact ⟨{ f with mc_groups := g }, h4, rfl, rfl, rfl, s1, s2, h1, h3⟩

/-- Witness of C1 on the sample kernel. -/
theorem get_nlctrl_families_attaches_groups_witness :
    kernel_wf demo_kernel ∧
    list_families demo_kernel nl_state.init 0 =
      some (nl_state.init.log (nl_event.ctrl_alloc_cache 0),
        [{ id := 28, name := "nl80211", version := 1, mc_groups := none },
         { id := 16, name := "nlctrl", version := 2, mc_groups := none }]) ∧
    (get_nlctrl_families demo_kernel nl_state.init).map Prod.snd =
      some [{ id := 28, name := "nl80211", version := 1,
              mc_groups := some [{ id := 5, name := "scan" }, { id := 3, name := "mlme" }] },
            { id := 16, name := "nlctrl", version := 2, mc_groups := some [] }] ∧
    ∃ st' out, get_nlctrl_families demo_kernel nl_state.init = some (st', out) ∧
      out.length = 2 ∧
      resolver_calls st'.trace = resolver_calls nl_state.init.trace + 2 ∧
      ∀ (i : Nat) (f : nlctrl_family),
        ([{ id := 28, name := "nl80211", version := 1, mc_groups := none },
          { id := 16, name := "nlctrl", version := 2, mc_groups := none }] :
            nlctrl_family_list)[i]? = some f →
        ∃ o, out[i]? = some o ∧ o.id = f.id ∧ o.name = f.name ∧ o.version = f.version ∧
          ∃ s1 s2, s1.next_sock = nl_state.init.next_sock + 1 + i ∧
            list_all_multicast_groups demo_kernel s1 nl_state.init.next_sock f.name =
              some (s2, o.mc_groups) := by
  have hk : kernel_wf demo_kernel := by
    intro s req m hm
    simp only [demo_kernel] at hm
    split at hm <;> simp at hm <;> subst hm <;> rfl
  exact ⟨hk, rfl, rfl,
    get_nlctrl_families_attaches_groups demo_kernel hk nl_state.init nl_state.init _ _ rfl⟩

/-! ## The group callback -/

/-- C2: when `CTRL_ATTR_MCAST_GROUPS` is present and its entries are well
formed on the wire, `multicast_groups_cb` returns `NL_OK` and puts in front of
the list exactly the records of the entries that carry both a name and an id,
one record per such entry with that entry's id and name, and none for an entry
that misses either attribute. -/
theorem multicast_groups_cb_adds_wellformed_entries (entries : List mcgrp_entry)
    (groups : multicast_group_list) (hwf : ∀ e ∈ entries, entry_wf e = true) :
    ∃ added, multicast_groups_cb { mcast_groups := some entries } groups =
        some (NL_OK, added ++ groups) ∧
      added.Perm (entries.filterMap entry_group) ∧
      ∀ g, g ∈ added ↔ ∃ e ∈ entries, e.grp_name = some g.name ∧ e.grp_id = some g.id := by
  refine ⟨(entries.filterMap entry_group).reverse, ?_, List.reverse_perm _, ?_⟩
  · have h := multicast_groups_cb_wf { mcast_groups := some entries } groups
      (by simpa [msg_wf, msg_entries, List.all_eq_true] using hwf)
    simpa [msg_entries] using h
  · intro g
    simp only [List.mem_reverse, List.mem_filterMap]
    constructor
    · rintro ⟨e, he, hg⟩
      refine ⟨e, he, ?_⟩
      unfold entry_group at hg
      split at hg
      · next nm gid hn hi =>
        simp at hg
        subst hg
        exact ⟨hn, hi⟩
      · simp at hg
    · rintro ⟨e, he, hn, hi⟩
      exact ⟨e, he, by simp [entry_group, hn, hi]⟩

/-- Witness of C2: the entries `("mlme",3)` and `("scan",5)` of family
`nl80211` give exactly the records `(mlme,3)` and `(scan,5)`; an entry without
id between them is dropped and its neighbours are kept. -/
theorem multicast_groups_cb_adds_wellformed_entries_witness :
    (∀ e ∈ [({ grp_name := some "mlme", grp_id := some 3 } : mcgrp_entry),
            { grp_name := some "oops", grp_id := none },
            { grp_name := some "scan", grp_id := some 5 }], entry_wf e = true) ∧
    multicast_groups_cb nl80211_msg [] =
      some (NL_OK, [{ id := 5, name := "scan" }, { id := 3, name := "mlme" }]) ∧
    multicast_groups_cb
      { mcast_groups := some [{ grp_name := some "mlme", grp_id := some 3 },
                              { grp_name := some "oops", grp_id := none },
                              { grp_name := some "scan", grp_id := some 5 }] } [] =
      some (NL_OK, [{ id := 5, name := "scan" }, { id := 3, name := "mlme" }]) ∧
    ∃ added, multicast_groups_cb
        { mcast_groups := some [{ grp_name := some "mlme", grp_id := some 3 },
                                { grp_name := some "oops", grp_id := none },
                                { grp_name := some "scan", grp_id := some 5 }] } [] =
        some (NL_OK, added ++ []) ∧
      added.Perm (List.filterMap entry_group
        [{ grp_name := some "mlme", grp_id := some 3 },
         { grp_name := some "oops", grp_id := none },
         { grp_name := some "scan", grp_id := some 5 }]) ∧
      ∀ g, g ∈ added ↔ ∃ e ∈ [({ grp_name := some "mlme", grp_id := some 3 } : mcgrp_entry),
            { grp_name := some "oops", grp_id := none },
            { grp_name := some "scan", grp_id := some 5 }],
          e.grp_name = some g.name ∧ e.grp_id = some g.id :=
  ⟨by decide, rfl, rfl, multicast_groups_cb_adds_wellformed_entries _ _ (by decide)⟩

/-- C3: with `NLA_PUT_STRING` succeeding and the kernel's messages well
formed, a message without `CTRL_ATTR_MCAST_GROUPS` leaves the group list as it
is; when no message of the response carries the attribute,
`list_all_multicast_groups` returns a list that is not null and is empty; and
every family of a catalog that `get_nlctrl_families` returns has a `mc_groups`
that is not null. -/
theorem absent_mcast_groups_gives_empty_list (k : nl_kernel) (hk : kernel_wf k)
    (hput : ∀ name, 0 ≤ k.nla_put_string name) :
    (∀ groups, multicast_groups_cb { mcast_groups := none } groups = some (NL_SKIP, groups)) ∧
    (∀ (st : nl_state) (socket : Nat) (family_name : String),
      (∀ m ∈ k.nl_recvmsgs st.next_sock (getfamily_request k st.next_sock family_name),
        m.mcast_groups = none) →
      ∃ st', list_all_multicast_groups k st socket family_name = some (st', some [])) ∧
    (∀ (st st' : nl_state) (out : nlctrl_family_list),
      get_nlctrl_families k st = some (st', out) → ∀ f ∈ out, f.mc_groups ≠ none) := by
  refine ⟨fun groups => rfl, ?_, ?_⟩
  · intro st socket family_name hnone
    obtain ⟨st', g, h, _, _, _, _, _, hfail, hok⟩ :=
      list_all_multicast_groups_spec k hk st socket family_name
    refine ⟨st', ?_⟩
    rw [h]
    by_cases hs : k.nl_send_auto st.next_sock (getfamily_request k st.next_sock family_name) < 0
    · rw [hfail (hput _) hs]
    · rw [hok (hput _) (not_lt.mp hs)]
      have hnil : (k.nl_recvmsgs st.next_sock
          (getfamily_request k st.next_sock family_name)).flatMap msg_entries = [] := by
        rw [List.flatMap_eq_nil_iff]
        intro m hm
        simp [msg_entries, hnone m hm]
      simp [hnil]
  · intro st st' out h f hf
    obtain ⟨sa, sb, lst, hl⟩ := get_nlctrl_families_inv k st st' out h
    obtain ⟨st2, out2, h2, _, _, hlen, hi⟩ := get_nlctrl_families_spec k hk st sa sb lst hl
    rw [h] at h2
    have hout : out2 = out := by
      have := Option.some.inj h2
      exact (congrArg Prod.snd this).symm
    subst hout
    obtain ⟨i, hlt, hget⟩ := List.getElem_of_mem hf
    have hlt2 : i < lst.length := by omega
    obtain ⟨s1, s2, g, _, _, hcall, ho⟩ := hi i lst[i] (List.getElem?_eq_getElem hlt2)
    rw [List.getElem?_eq_getElem hlt] at ho
    have hfe : f = { lst[i] with mc_groups := g } := by
      rw [← hget]
      exact Option.some.inj ho
    obtain ⟨s3, g3, h3, _, _, _, hnull, _, hfail, hok⟩ :=
      list_all_multicast_groups_spec k hk s1 st.next_sock lst[i].name
    rw [hcall] at h3
    have hg : g = g3 := congrArg Prod.snd (Option.some.inj h3)
    rw [hfe]
    simp only
    rw [hg]
    by_cases hs : k.nl_send_auto s1.next_sock
        (getfamily_request k s1.next_sock lst[i].name) < 0
    · rw [hfail (hput _) hs]
      simp
    · rw [hok (hput _) (not_lt.mp hs)]
      simp

/-- Witness of C3 on the sample kernel: the family `nlctrl`, whose response
has no group attribute, gets an empty list. -/
theorem absent_mcast_groups_gives_empty_list_witness :
    kernel_wf demo_kernel ∧ (∀ name, 0 ≤ demo_kernel.nla_put_string name) ∧
    (list_all_multicast_groups demo_kernel nl_state.init 0 "nlctrl").map Prod.snd =
      some (some []) ∧
    ((∀ groups, multicast_groups_cb { mcast_groups := none } groups = some (NL_SKIP, groups)) ∧
    (∀ (st : nl_state) (socket : Nat) (family_name : String),
      (∀ m ∈ demo_kernel.nl_recvmsgs st.next_sock
          (getfamily_request demo_kernel st.next_sock family_name),
        m.mcast_groups = none) →
      ∃ st', list_all_multicast_groups demo_kernel st socket family_name =
        some (st', some [])) ∧
    (∀ (st st' : nl_state) (out : nlctrl_family_list),
      get_nlctrl_families demo_kernel st = some (st', out) → ∀ f ∈ out, f.mc_groups ≠ none)) := by
  have hk : kernel_wf demo_kernel := by
    intro s req m hm
    simp only [demo_kernel] at hm
    split at hm <;> simp at hm <;> subst hm <;> rfl
  have hput : ∀ name, 0 ≤ demo_kernel.nla_put_string name := by
    intro name
    simp [demo_kernel]
  exact ⟨hk, hput, rfl, absent_mcast_groups_gives_empty_list demo_kernel hk hput⟩

/-- C8: for every sequence of nested entries that are well formed on the
wire, the records `multicast_groups_cb` adds stand in the list in reverse
order of arrival, ahead of the records that were there, which are kept in
their order; over the calls made for the messages of one request the list is
the reverse of all entries with both attributes, in arrival order, followed
by what it held at the start. -/
theorem multicast_groups_cb_prepends (entries : List mcgrp_entry) (msgs : List nl_msg)
    (groups : multicast_group_list) (he : ∀ e ∈ entries, entry_wf e = true)
    (hm : ∀ m ∈ msgs, msg_wf m = true) :
    multicast_groups_cb { mcast_groups := some entries } groups =
      some (NL_OK, (entries.filterMap entry_group).reverse ++ groups) ∧
    recvmsgs_dispatch msgs groups =
      some (((msgs.flatMap msg_entries).filterMap entry_group).reverse ++ groups) := by
  refine ⟨?_, recvmsgs_dispatch_wf msgs groups hm⟩
  have h := multicast_groups_cb_wf { mcast_groups := some entries } groups
    (by simpa [msg_wf, msg_entries, List.all_eq_true] using he)
  simpa [msg_entries] using h

/-- Witness of C8: two messages, the list holding one record at the start. -/
theorem multicast_groups_cb_prepends_witness :
    (∀ e ∈ [({ grp_name := some "mlme", grp_id := some 3 } : mcgrp_entry),
            { grp_name := some "scan", grp_id := some 5 }], entry_wf e = true) ∧
    (∀ m ∈ [nl80211_msg, { mcast_groups := none },
            { mcast_groups := some [{ grp_name := some "regulatory", grp_id := some 4 }] }],
      msg_wf m = true) ∧
    recvmsgs_dispatch [nl80211_msg, { mcast_groups := none },
        { mcast_groups := some [{ grp_name := some "regulatory", grp_id := some 4 }] }]
        [{ id := 9, name := "config" }] =
      some [{ id := 4, name := "regulatory" }, { id := 5, name := "scan" },
            { id := 3, name := "mlme" }, { id := 9, name := "config" }] ∧
    (multicast_groups_cb
        { mcast_groups := some [{ grp_name := some "mlme", grp_id := some 3 },
                                { grp_name := some "scan", grp_id := some 5 }] }
        [{ id := 9, name := "config" }] =
      some (NL_OK, (List.filterMap entry_group
        [{ grp_name := some "mlme", grp_id := some 3 },
         { grp_name := some "scan", grp_id := some 5 }]).reverse ++
          [{ id := 9, name := "config" }]) ∧
    recvmsgs_dispatch [nl80211_msg, { mcast_groups := none },
        { mcast_groups := some [{ grp_name := some "regulatory", grp_id := some 4 }] }]
        [{ id := 9, name := "config" }] =
      some ((List.filterMap entry_group (List.flatMap
        [nl80211_msg, { mcast_groups := none },
         { mcast_groups := some [{ grp_name := some "regulatory", grp_id := some 4 }] }]
        msg_entries)).reverse ++
          [{ id := 9, name := "config" }])) :=
  ⟨by decide, by decide, rfl, multicast_groups_cb_prepends _ _ _ (by decide) (by decide)⟩

/-! ## Failing calls -/

/-- C4, as stated, fails: on the sample kernel with the send for `nl80211`
failing, the build returns a catalog, and goes on to query `nlctrl`. -/
theorem send_failure_returns_catalog :
    send_fail_kernel.nl_send_auto 1 (getfamily_request send_fail_kernel 1 "nl80211") < 0 ∧
    get_nlctrl_families send_fail_kernel nl_state.init =
      some ({ next_sock := 3,
              trace := [nl_event.socket_alloc 0, nl_event.genl_connect 0,
                nl_event.ctrl_alloc_cache 0,
                nl_event.socket_alloc 1, nl_event.genl_connect 1,
                nl_event.ctrl_resolve 1 "nlctrl",
                nl_event.send_auto 1 { family := 16, cmd := 3, family_name := "nl80211" },
                nl_event.socket_free 1,
                nl_event.socket_alloc 2, nl_event.genl_connect 2,
                nl_event.ctrl_resolve 2 "nlctrl",
                nl_event.send_auto 2 { family := 16, cmd := 3, family_name := "nlctrl" },
                nl_event.recvmsgs 2, nl_event.socket_free 2,
                nl_event.socket_free 0] },
            [{ id := 28, name := "nl80211", version := 1, mc_groups := some [] },
             { id := 16, name := "nlctrl", version := 2, mc_groups := some [] }]) := by
  decide

/-- C4, amended: when the send for the family at position `i` returns a
negative value (its name having been put in the request), the build does not
abort: `get_nlctrl_families` returns the whole catalog, and that family holds
an empty list that is not null. -/
theorem send_failure_gives_empty_group_list (k : nl_kernel) (hk : kernel_wf k)
    (st sa sb : nl_state) (lst : nlctrl_family_list)
    (hl : list_families k sa st.next_sock = some (sb, lst))
    (i : Nat) (f : nlctrl_family) (hf : lst[i]? = some f)
    (hput : 0 ≤ k.nla_put_string f.name)
    (hsend : k.nl_send_auto (st.next_sock + 1 + i)
      (getfamily_request k (st.next_sock + 1 + i) f.name) < 0) :
    ∃ st' out, get_nlctrl_families k st = some (st', out) ∧
      out.length = lst.length ∧
      out[i]? = some { f with mc_groups := some [] } := by
  obtain ⟨st', out, h, _, _, hlen, hi⟩ := get_nlctrl_families_spec k hk st sa sb lst hl
  refine ⟨st', out, h, hlen, ?_⟩
  obtain ⟨s1, s2, g, h1, _, hcall, ho⟩ := hi i f hf
  obtain ⟨s3, g3, h3, _, _, _, _, _, hfail, _⟩ :=
    list_all_multicast_groups_spec k hk s1 st.next_sock f.name
  rw [hcall] at h3
  have hg : g = g3 := congrArg Prod.snd (Option.some.inj h3)
  rw [h1] at hfail
  rw [ho, hg, hfail hput hsend]

/-- Witness of the amended C4 on the sample kernel with the failing send. -/
theorem send_failure_gives_empty_group_list_witness :
    kernel_wf send_fail_kernel ∧
    list_families send_fail_kernel nl_state.init 0 =
      some (nl_state.init.log (nl_event.ctrl_alloc_cache 0),
        [{ id := 28, name := "nl80211", version := 1, mc_groups := none },
         { id := 16, name := "nlctrl", version := 2, mc_groups := none }]) ∧
    0 ≤ send_fail_kernel.nla_put_string "nl80211" ∧
    send_fail_kernel.nl_send_auto 1 (getfamily_request send_fail_kernel 1 "nl80211") < 0 ∧
    ∃ st' out, get_nlctrl_families send_fail_kernel nl_state.init = some (st', out) ∧
      out.length = 2 ∧
      out[0]? = some { id := 28, name := "nl80211", version := 1, mc_groups := some [] } := by
  have hk : kernel_wf send_fail_kernel := by
    intro s req m hm
    simp only [send_fail_kernel, demo_kernel] at hm
    split at hm <;> simp at hm <;> subst hm <;> rfl
  exact ⟨hk, rfl, by decide, by decide,
    send_failure_gives_empty_group_list send_fail_kernel hk nl_state.init nl_state.init _ _ rfl
      0 { id := 28, name := "nl80211", version := 1, mc_groups := none } rfl
      (by decide) (by decide)⟩

/-- C5, as stated, fails: on the sample kernel with `genl_ctrl_resolve`
returning `-12`, each request is sent with `-12` as its family id and the
build returns a catalog. -/
theorem resolve_failure_returns_catalog :
    resolve_fail_kernel.genl_ctrl_resolve 1 "nlctrl" < 0 ∧
    get_nlctrl_families resolve_fail_kernel nl_state.init =
      some ({ next_sock := 3,
              trace := [nl_event.socket_alloc 0, nl_event.genl_connect 0,
                nl_event.ctrl_alloc_cache 0,
                nl_event.socket_alloc 1, nl_event.genl_connect 1,
                nl_event.ctrl_resolve 1 "nlctrl",
                nl_event.send_auto 1 { family := -12, cmd := 3, family_name := "nl80211" },
                nl_event.recvmsgs 1, nl_event.socket_free 1,
                nl_event.socket_alloc 2, nl_event.genl_connect 2,
                nl_event.ctrl_resolve 2 "nlctrl",
                nl_event.send_auto 2 { family := -12, cmd := 3, family_name := "nlctrl" },
                nl_event.recvmsgs 2, nl_event.socket_free 2,
                nl_event.socket_free 0] },
            [{ id := 28, name := "nl80211", version := 1,
               mc_groups := some [{ id := 5, name := "scan" }, { id := 3, name := "mlme" }] },
             { id := 16, name := "nlctrl", version := 2, mc_groups := some [] }]) := by
  decide

/-- C5, amended: when `genl_ctrl_resolve` of `"nlctrl"` returns a negative
value (and `NLA_PUT_STRING` succeeds), the build does not abort: for every
listed family a request carrying that negative value as its family id is
handed to `nl_send_auto`, and `get_nlctrl_families` returns a catalog of all
the families. -/
theorem resolve_failure_still_sends (k : nl_kernel) (hk : kernel_wf k)
    (hres : ∀ s, k.genl_ctrl_resolve s "nlctrl" < 0)
    (hput : ∀ name, 0 ≤ k.nla_put_string name)
    (st sa sb : nl_state) (lst : nlctrl_family_list)
    (hl : list_families k sa st.next_sock = some (sb, lst)) :
    ∃ st' out, get_nlctrl_families k st = some (st', out) ∧
      out.length = lst.length ∧
      ∀ (i : Nat) (f : nlctrl_family), lst[i]? = some f →
        ∃ req : nl_request, req.family < 0 ∧ req.family_name = f.name ∧
          nl_event.send_auto (st.next_sock + 1 + i) req ∈ st'.trace := by
  obtain ⟨st', out, h, _, _, hlen, hi⟩ := get_nlctrl_families_spec k hk st sa sb lst hl
  refine ⟨st', out, h, hlen, ?_⟩
  intro i f hf
  obtain ⟨s1, s2, g, h1, ⟨evs, htr⟩, hcall, _⟩ := hi i f hf
  obtain ⟨s3, g3, h3, _, _, _, _, hmem, _, _⟩ :=
    list_all_multicast_groups_spec k hk s1 st.next_sock f.name
  rw [hcall] at h3
  have hs : s2 = s3 := congrArg Prod.fst (Option.some.inj h3)
  refine ⟨getfamily_request k (st.next_sock + 1 + i) f.name, hres _, rfl, ?_⟩
  rw [htr, hs, ← h1]
  exact List.mem_append_left _ (hmem (hput _))

/-- Witness of the amended C5 on the sample kernel with the failing resolve. -/
theorem resolve_failure_still_sends_witness :
    kernel_wf resolve_fail_kernel ∧
    (∀ s, resolve_fail_kernel.genl_ctrl_resolve s "nlctrl" < 0) ∧
    (∀ name, 0 ≤ resolve_fail_kernel.nla_put_string name) ∧
    list_families resolve_fail_kernel nl_state.init 0 =
      some (nl_state.init.log (nl_event.ctrl_alloc_cache 0),
        [{ id := 28, name := "nl80211", version := 1, mc_groups := none },
         { id := 16, name := "nlctrl", version := 2, mc_groups := none }]) ∧
    ∃ st' out, get_nlctrl_families resolve_fail_kernel nl_state.init = some (st', out) ∧
      out.length = 2 ∧
      ∀ (i : Nat) (f : nlctrl_family),
        ([{ id := 28, name := "nl80211", version := 1, mc_groups := none },
          { id := 16, name := "nlctrl", version := 2, mc_groups := none }] :
            nlctrl_family_list)[i]? = some f →
        ∃ req : nl_request, req.family < 0 ∧ req.family_name = f.name ∧
          nl_event.send_auto (nl_state.init.next_sock + 1 + i) req ∈ st'.trace := by
  have hk : kernel_wf resolve_fail_kernel := by
    intro s req m hm
    simp only [resolve_fail_kernel, demo_kernel] at hm
    split at hm <;> simp at hm <;> subst hm <;> rfl
  have hres : ∀ s, resolve_fail_kernel.genl_ctrl_resolve s "nlctrl" < 0 := by
    intro s
    simp [resolve_fail_kernel]
  have hput : ∀ name, 0 ≤ resolve_fail_kernel.nla_put_string name := by
    intro name
    simp [resolve_fail_kernel, demo_kernel]
  exact ⟨hk, hres, hput, rfl,
    resolve_failure_still_sends resolve_fail_kernel hk hres hput nl_state.init nl_state.init
      _ _ rfl⟩

/-! ## The family lister -/

/-- C9, as stated, fails: the sample cache delivers the line of `nlctrl`
first and the line of `nl80211` second, and the list `list_families` returns
has `nl80211` at its head and `nlctrl` after it: the record at the head is
not the one made from the first line delivered. -/
theorem list_families_head_is_last_delivered :
    demo_kernel.genl_ctrl_alloc_cache 0 =
      some [[{ buff := "0x0010 nlctrl version 2\n", mem := zero_mem }],
            [{ buff := "0x001c nl80211 version 1\n", mem := zero_mem }]] ∧
    new_node { buff := "0x0010 nlctrl version 2\n", mem := zero_mem } =
      some { id := 16, name := "nlctrl", version := 2, mc_groups := none } ∧
    list_families demo_kernel nl_state.init 0 =
      some ({ next_sock := 0, trace := [nl_event.ctrl_alloc_cache 0] },
        [{ id := 28, name := "nl80211", version := 1, mc_groups := none },
         { id := 16, name := "nlctrl", version := 2, mc_groups := none }]) ∧
    (list_families demo_kernel nl_state.init 0).bind (fun r => r.2.head?) ≠
      new_node { buff := "0x0010 nlctrl version 2\n", mem := zero_mem } := by
  decide

/-- C9, amended: the list `list_families` returns holds the family records in
reverse order of delivery. For every cache whose dump calls keep to the name
field, `list_families` returns a list with one node per call, and the node
made for the `i`-th call delivered is the one at position `n - 1 - i` from
the head, `n` being the number of calls (the last delivered is at the head). -/
theorem list_families_reverse_delivery_order (k : nl_kernel) (st : nl_state) (sock : Nat)
    (cache : List nl_object) (hc : k.genl_ctrl_alloc_cache sock = some cache)
    (hfit : ∀ c ∈ cache.flatten, dump_call_fits c = true) :
    ∃ st' lst, list_families k st sock = some (st', lst) ∧
      lst.length = cache.flatten.length ∧
      ∀ (i : Nat) (c : dump_call), cache.flatten[i]? = some c →
        ∃ f, new_node c = some f ∧ lst[cache.flatten.length - 1 - i]? = some f := by
  have hsome : ∀ c ∈ cache.flatten, ∃ f, new_node c = some f :=
    fun c hc => new_node_fits c (hfit c hc)
  obtain ⟨hlen, hget⟩ := filterMap_getElem_of_forall_some new_node cache.flatten hsome
  refine ⟨st.log (nl_event.ctrl_alloc_cache sock),
    (cache.flatten.filterMap new_node).reverse, ?_, by rw [List.length_reverse, hlen], ?_⟩
  · simp [list_families, hc, nl_cache_foreach_fits cache [] hfit]
  · intro i c hi
    have hlt : i < cache.flatten.length := by
      by_contra hge
      rw [List.getElem?_eq_none (not_lt.mp hge)] at hi
      exact absurd hi (by simp)
    obtain ⟨f, hf⟩ := hsome c (List.getElem?_mem hi)
    refine ⟨f, hf, ?_⟩
    have hrev := List.getElem?_reverse
      (l := cache.flatten.filterMap new_node) (i := cache.flatten.length - 1 - i)
      (by rw [hlen]; omega)
    rw [hrev, hlen, ← hf, ← hget i c hi]
    congr 1
    omega

/-- Witness of the amended C9 on the sample cache. -/
theorem list_families_reverse_delivery_order_witness :
    demo_kernel.genl_ctrl_alloc_cache 0 =
      some [[{ buff := "0x0010 nlctrl version 2\n", mem := zero_mem }],
            [{ buff := "0x001c nl80211 version 1\n", mem := zero_mem }]] ∧
    (∀ c ∈ List.flatten [[({ buff := "0x0010 nlctrl version 2\n", mem := zero_mem } : dump_call)],
            [{ buff := "0x001c nl80211 version 1\n", mem := zero_mem }]],
        dump_call_fits c = true) ∧
    ∃ st' lst, list_families demo_kernel nl_state.init 0 = some (st', lst) ∧
      lst.length = (List.flatten
        [[({ buff := "0x0010 nlctrl version 2\n", mem := zero_mem } : dump_call)],
         [{ buff := "0x001c nl80211 version 1\n", mem := zero_mem }]]).length ∧
      ∀ (i : Nat) (c : dump_call),
        (List.flatten [[({ buff := "0x0010 nlctrl version 2\n", mem := zero_mem } : dump_call)],
            [{ buff := "0x001c nl80211 version 1\n", mem := zero_mem }]])[i]? = some c →
        ∃ f, new_node c = some f ∧
          lst[(List.flatten
            [[({ buff := "0x0010 nlctrl version 2\n", mem := zero_mem } : dump_call)],
             [{ buff := "0x001c nl80211 version 1\n", mem := zero_mem }]]).length - 1 - i]? =
            some f :=
  ⟨rfl, by decide,
    list_families_reverse_delivery_order demo_kernel nl_state.init 0 _ rfl (by decide)⟩

/-- C6, on the code: a dump line with none of the fields (the empty line) is
not skipped. `nl_object_dump_cb` puts a node at the head of the list all the
same, and the node's id, name and version are what `malloc` left in the
block. -/
theorem nl_object_dump_cb_keeps_unmatched_line (lst : nlctrl_family_list)
    (mem : nlctrl_family) :
    sscanf_family "".data = { id := none, name := none, version := none } ∧
    nl_object_dump_cb lst { buff := "", mem := mem } =
      some ({ id := mem.id, name := mem.name, version := mem.version, mc_groups := none }
        :: lst) := by
  exact ⟨rfl, rfl⟩

/-- C7, on the code: the line `0x0010`, with no name and no version, gives a
record whose name is empty and whose version is not from the line (both are
what the zeroed block held); and a line whose name has sixteen characters is
written past the end of the name field. -/
theorem nl_object_dump_cb_record_not_well_formed :
    nl_object_dump_cb [] { buff := "0x0010\n", mem := zero_mem } =
      some [{ id := 16, name := "", version := 0, mc_groups := none }] ∧
    sscanf_family "1 abcdefghijklmnop version 2".data =
      { id := some 1, name := some "abcdefghijklmnop", version := some 2 } ∧
    MAX_NAME_LEN ≤ "abcdefghijklmnop".length ∧
    nl_object_dump_cb [] { buff := "1 abcdefghijklmnop version 2", mem := zero_mem } = none := by
  decide

/-! ## Sockets -/

/-- C10, on the code: in a build over the two families of the sample kernel
three sockets are allocated. The builder's socket 0 is used for the cache
only; each call of `list_all_multicast_groups` allocates a socket of its own
(1, then 2), resolves, sends and receives on it and frees it. -/
theorem get_nlctrl_families_allocates_socket_per_family :
    (get_nlctrl_families demo_kernel nl_state.init).map Prod.fst =
      some { next_sock := 3,
             trace := [nl_event.socket_alloc 0, nl_event.genl_connect 0,
               nl_event.ctrl_alloc_cache 0,
               nl_event.socket_alloc 1, nl_event.genl_connect 1,
               nl_event.ctrl_resolve 1 "nlctrl",
               nl_event.send_auto 1 { family := 16, cmd := 3, family_name := "nl80211" },
               nl_event.recvmsgs 1, nl_event.socket_free 1,
               nl_event.socket_alloc 2, nl_event.genl_connect 2,
               nl_event.ctrl_resolve 2 "nlctrl",
               nl_event.send_auto 2 { family := 16, cmd := 3, family_name := "nlctrl" },
               nl_event.recvmsgs 2, nl_event.socket_free 2,
               nl_event.socket_free 0] } := by
  decide

end ListMulticastIds
